import Mathlib

/-!
Verification of the `multilock.py` lock state machine (`MultiLock` class).

The filesystem state relevant to one lock is modelled by `FS`: existence of
the lockgroup directory, existence of the per-lock directory together with
its last-modified time, and the contents of the pending (`.lock`) and
acquired (`.locked`) record files.  Process-liveness probing
(`os.kill(pid, 0)`) is modelled by an environment function returning the
outcome of the probe.  Python string operations used by the code
(`str.strip`, `str.split`, `int(...)`, `os.read(fd, 1024)`) are modelled
character-exactly.
-/

/-- Python `str.isspace` characters relevant to `strip`/`split`:
space, tab, newline, carriage return, vertical tab, form feed. -/
def isSpaceChar (c : Char) : Bool :=
  c == ' ' || c == '\t' || c == '\n' || c == '\r' || c == '\x0b' || c == '\x0c'

/-- Worker for Python `str.split()` (no separator argument): splits on runs
of whitespace and discards empty tokens.  `acc` holds the current token in
reverse. -/
def splitWsAux : List Char → List Char → List String
  | [], acc => if acc.isEmpty then [] else [⟨acc.reverse⟩]
  | c :: cs, acc =>
    if isSpaceChar c then
      if acc.isEmpty then splitWsAux cs [] else ⟨acc.reverse⟩ :: splitWsAux cs []
    else splitWsAux cs (c :: acc)

/-- Python `s.split()` with no arguments. -/
def pySplit (s : String) : List String := splitWsAux s.data []

/-- Python `s.strip()`: remove leading and trailing whitespace. -/
def pyStrip (s : String) : String :=
  ⟨((s.data.dropWhile isSpaceChar).reverse.dropWhile isSpaceChar).reverse⟩

/-- Model of `os.read(fd, 1024)` on a file whose whole content is `s`:
at most the first 1024 bytes are returned (contents are ASCII here, so
bytes coincide with characters). -/
def pyRead1024 (s : String) : String := ⟨s.data.take 1024⟩

/-- Accumulate the numeric value of a list of decimal digit characters. -/
def digitsVal (l : List Char) : Nat :=
  l.foldl (fun a c => 10 * a + (c.toNat - 48)) 0

/-- Parse a non-empty all-decimal-digit character list; `none` otherwise. -/
def parseDigits (l : List Char) : Option Nat :=
  if l.isEmpty then none
  else if l.all Char.isDigit then some (digitsVal l) else none

/-- Model of Python 2 `int(s)` on a string: optional surrounding
whitespace, optional single sign, then one or more decimal digits.
Returns `none` where Python raises `ValueError`. -/
def pyInt (s : String) : Option Int :=
  match (pyStrip s).data with
  | '-' :: rest => (parseDigits rest).map (fun n => -(Int.ofNat n))
  | '+' :: rest => (parseDigits rest).map (fun n => Int.ofNat n)
  | l => (parseDigits l).map (fun n => Int.ofNat n)

/-- The identity a `MultiLock` instance writes into and checks against lock
records: `self.hostname` (from `socket.gethostname()`) and `self.pid`
(`os.getpid()`, or the sentinel `-1` when `nohup` was requested). -/
structure Ident where
  hostname : String
  pid : Int
deriving DecidableEq, Repr

/-- The record text written into the pending file:
`self.hostname + ' ' + str(self.pid)`. -/
def mkRecord (id : Ident) : String := id.hostname ++ " " ++ toString id.pid

/-- Outcome of the liveness probe `os.kill(pid, 0)`:
`ok` (no exception: the process exists and may be signalled),
`errEPERM` (`OSError` with `errno == EPERM`: exists, no permission),
`errOther` (`OSError` with any other errno, e.g. `ESRCH`: not running). -/
inductive KillResult where
  | ok
  | errEPERM
  | errOther
deriving DecidableEq, Repr

/-- External environment of a cleanup/acquire call: the current wall-clock
time (`time.time()`) and the outcome of a liveness probe per pid. -/
structure Env where
  now : Int
  alive : Int → KillResult

/-- Filesystem state relevant to one `MultiLock` instance's paths.
`groupOtherEntries` records whether the lockgroup directory contains
entries other than this lock's directory (they keep `os.rmdir` of the
group failing with `ENOTEMPTY`).  `acquiredReadable` tells whether opening
the acquired file for reading succeeds when it exists. -/
structure FS where
  lockgroupExists : Bool
  groupOtherEntries : Bool
  lockDirExists : Bool
  lockDirMtime : Int
  pendingFile : Option String
  acquiredFile : Option String
  acquiredReadable : Bool
deriving DecidableEq, Repr

/-- Effect of `shutil.rmtree(os.path.dirname(self.lockedfile))`: the lock
directory and both record files inside it disappear. -/
def removeLockDir (st : FS) : FS :=
  { st with lockDirExists := false, pendingFile := none, acquiredFile := none }

/-- The one exception that can escape the modelled operations: the
`ValueError` raised by `int(qpid)` in `cleanup` on a non-integer pid field
(only `OSError` is caught there). -/
inductive PyError where
  | valueError
deriving DecidableEq, Repr

/-- `MultiLock.verify`: open `self.lockedfile` for read, read at most 1024
bytes, strip and split the text, unpack into exactly two tokens, and
compare against `self.hostname` / `int(self.pid)`.  Every failure path
(missing file, unreadable file, wrong token count, non-integer pid) is
swallowed by the bare `except:` and yields `false`. -/
def verify (st : FS) (id : Ident) : Bool :=
  match st.acquiredFile, st.acquiredReadable with
  | some content, true =>
    match pySplit (pyStrip (pyRead1024 content)) with
    | [qhostname, qpid] =>
      if qhostname = id.hostname then
        match pyInt qpid with
        | some p => p == id.pid
        | none => false
      else false
    | _ => false
  | _, _ => false

/-- Python truthiness of the `maxage` argument (`if maxage:`): `None` and
`0` are falsy. -/
def truthyMaxage (maxage : Option Int) : Bool := maxage.getD 0 != 0

/-- The age branch of `MultiLock.cleanup` (lines `if maxage and
os.path.exists(...)`): when `maxage` is truthy and the lock directory
exists and its age (`time.time() - stat(...)[8]`) meets or exceeds
`maxage`, the whole directory is force-removed regardless of ownership
(exceptions in this branch are swallowed by the bare `except:`). -/
def cleanupAge (st : FS) (maxage : Option Int) (env : Env) : FS :=
  if truthyMaxage maxage && st.lockDirExists
      && decide (env.now - st.lockDirMtime ≥ maxage.getD 0)
    then removeLockDir st else st

/-- The record read inside `cleanup`:
`qhostname, qpid = (None, None); try: ... fh.read().strip().split() ...
except: pass`.  A read failure or a token count other than two leaves
`(None, None)`, modelled as `none`. -/
def readTwoTokens (st : FS) (content : String) : Option (String × String) :=
  if st.acquiredReadable then
    match pySplit (pyStrip content) with
    | [qh, qp] => some (qh, qp)
    | _ => none
  else none

/-- The liveness branch of `MultiLock.cleanup` (from
`if os.path.isfile(self.lockedfile):` on): an unparsed record never equals
the local hostname (`None != self.hostname`), so the function falls
through to `return 0`; a matching hostname leads to `int(qpid)`, whose
`ValueError` on a malformed pid is NOT caught (only `OSError` is); a
negative pid returns `1` leaving the lock in place; a positive pid is
probed with `os.kill(pid, 0)` and only a non-`EPERM` `OSError` triggers
force removal (return `1`); pid `0` is not probed and falls through to
`return 0`.  When no acquired file exists the function returns `1`. -/
def cleanupLive (st : FS) (id : Ident) (env : Env) : Except PyError (Bool × FS) :=
  match st.acquiredFile with
  | none => .ok (true, st)
  | some content =>
    match readTwoTokens st content with
    | none => .ok (false, st)
    | some (qh, qp) =>
      if qh = id.hostname then
        match pyInt qp with
        | none => .error .valueError
        | some p =>
          if p < 0 then .ok (true, st)
          else if p > 0 then
            match env.alive p with
            | .errOther => .ok (true, removeLockDir st)
            | .errEPERM => .ok (false, st)
            | .ok => .ok (false, st)
          else .ok (false, st)
      else .ok (false, st)

/-- `MultiLock.cleanup(maxage)`: the age-based force removal followed by
the liveness branch on the (possibly just removed) acquired file. -/
def cleanup (st : FS) (id : Ident) (maxage : Option Int) (env : Env) :
    Except PyError (Bool × FS) :=
  cleanupLive (cleanupAge st maxage env) id env

/-- The `try:`/`else:` body of `acquire` after `self._lockgroup()` has
ensured the lockgroup directory: `os.mkdir` of the lock directory fails
with `OSError` if it already exists (caught, `return 0`); the pending
file is created with `O_CREAT|O_EXCL` (an existing file: caught,
`return 0`); the record is written, fsynced and closed; then `os.rename`
commits the pending file to the acquired file and the method returns
`verify()`. -/
def acquireAttempt (st1 : FS) (id : Ident) (env : Env) : Except PyError (Bool × FS) :=
  let st2 := { st1 with lockgroupExists := true }
  if st2.lockDirExists then .ok (false, st2)
  else
    let st3 := { st2 with lockDirExists := true, lockDirMtime := env.now }
    if st3.pendingFile.isSome then .ok (false, st3)
    else
      let st4 := { st3 with pendingFile := none, acquiredFile := some (mkRecord id), acquiredReadable := true }
      .ok (verify st4 id, st4)

/-- `MultiLock.acquire(maxage)`.  When `verify()` already succeeds the
`if not self.verify():` guard skips the whole body and the method falls
through to `return 0`.  Otherwise a truthy `maxage` first runs
`cleanup(maxage)` (whose uncaught `ValueError` propagates, and whose
boolean result is discarded), the lockgroup directory is ensured, and the
atomic creation/commit sequence `acquireAttempt` runs. -/
def acquire (st : FS) (id : Ident) (maxage : Option Int) (env : Env) :
    Except PyError (Bool × FS) :=
  if verify st id then .ok (false, st)
  else
    match (if truthyMaxage maxage then (cleanup st id maxage env).map (fun r => r.2)
           else .ok st) with
    | .error e => .error e
    | .ok st1 => acquireAttempt st1 id env

/-- Effect of `os.rmdir(self.lockgroup)` inside `release`: succeeds only
when the group directory exists and is empty; `ENOTEMPTY` is passed over;
any other error would be re-raised but is swallowed by the `finally:
return self.cleanup()` of `release`, so the state is simply unchanged. -/
def rmdirGroup (st : FS) : FS :=
  if st.lockgroupExists && !st.groupOtherEntries && !st.lockDirExists then
    { st with lockgroupExists := false }
  else st

/-- `MultiLock.release()`: when `verify()` succeeds, remove the lock
directory and opportunistically `rmdir` the lockgroup; in all cases the
`finally: return self.cleanup()` makes the result that of a plain
`cleanup()` (which can still raise the uncaught `ValueError`). -/
def release (st : FS) (id : Ident) (env : Env) : Except PyError (Bool × FS) :=
  let st1 := if verify st id then rmdirGroup (removeLockDir st) else st
  cleanup st1 id none env

/-- Python 2 `int()` applied to a (rational) number: truncation toward
zero, computed as the truncating integer division of numerator by
denominator (`Int.div` rounds toward zero, like Python `int(float)`). -/
def pyIntOfRat (q : ℚ) : Int := q.num.tdiv (q.den : Int)

/-- The fields of a `MultiLock` object that the claims depend on, as set
by `__init__`. -/
structure Lock where
  lockname : String
  poll : Int
  hostname : String
  pid : Int
  nohup : Bool
deriving DecidableEq, Repr

/-- `MultiLock.__init__`: `self.poll = int(poll)`; `self.pid =
os.getpid()` is overwritten with the sentinel `-1` when `nohup` is
true. -/
def mkLock (lockname : String) (poll : ℚ) (nohup : Bool)
    (hostname : String) (ospid : Int) : Lock :=
  { lockname := lockname
    poll := pyIntOfRat poll
    hostname := hostname
    pid := if nohup then -1 else ospid
    nohup := nohup }

/-- The identity a lock object uses in records and checks. -/
def Lock.ident (lk : Lock) : Ident := ⟨lk.hostname, lk.pid⟩

/-- `MultiLock.__del__`: a `nohup` instance does nothing; otherwise
`release()` runs (its boolean result is discarded). -/
def delEffect (lk : Lock) (st : FS) (env : Env) : Except PyError FS :=
  if lk.nohup then .ok st
  else (release st lk.ident env).map (fun r => r.2)

/-! ### Decimal representation round-trip

These lemmas connect the record text `str(self.pid)` written by `acquire`
with the parse `int(qpid)` performed by `verify`/`cleanup`. -/

lemma digitsVal_nil : digitsVal [] = 0 := rfl

lemma foldl_digitsVal (l : List Char) (a : Nat) :
    l.foldl (fun a c => 10 * a + (c.toNat - 48)) a =
      a * 10 ^ l.length + digitsVal l := by
  induction l generalizing a with
  | nil => simp [digitsVal]
  | cons c cs ih =>
    simp only [List.foldl_cons, List.length_cons, digitsVal] at *
    rw [ih, ih (10 * 0 + (c.toNat - 48))]
    ring

lemma digitsVal_cons (c : Char) (l : List Char) :
    digitsVal (c :: l) = (c.toNat - 48) * 10 ^ l.length + digitsVal l := by
  show List.foldl _ _ (c :: l) = _
  rw [List.foldl_cons, foldl_digitsVal]
  norm_num

lemma digitChar_sub (n : Nat) (h : n < 10) :
    (Nat.digitChar n).toNat - 48 = n := by
  interval_cases n <;> rfl

lemma digitChar_isDigit (n : Nat) (h : n < 10) :
    (Nat.digitChar n).isDigit = true := by
  interval_cases n <;> rfl

lemma toDigitsCore_digitsVal :
    ∀ (f n : Nat) (ds : List Char), n < f →
      digitsVal (Nat.toDigitsCore 10 f n ds) = n * 10 ^ ds.length + digitsVal ds := by
  intro f
  induction f with
  | zero => intro n ds h; omega
  | succ f ih =>
    intro n ds h
    simp only [Nat.toDigitsCore]
    by_cases hz : n / 10 = 0
    · have h10 : n < 10 := by omega
      have hmod : n % 10 = n := by omega
      simp only [hz, if_pos]
      rw [digitsVal_cons, hmod, digitChar_sub n h10]
    · rw [if_neg hz, ih (n / 10) _ (by omega), digitsVal_cons,
        digitChar_sub (n % 10) (by omega), List.length_cons]
      have hn : 10 * (n / 10) + n % 10 = n := Nat.div_add_mod n 10
      calc n / 10 * 10 ^ (ds.length + 1) + ((n % 10) * 10 ^ ds.length + digitsVal ds)
          = (10 * (n / 10) + n % 10) * 10 ^ ds.length + digitsVal ds := by ring
        _ = n * 10 ^ ds.length + digitsVal ds := by rw [hn]

lemma toDigitsCore_all_digits :
    ∀ (f n : Nat) (ds : List Char), ds.all Char.isDigit = true →
      (Nat.toDigitsCore 10 f n ds).all Char.isDigit = true := by
  intro f
  induction f with
  | zero => intro n ds h; simpa [Nat.toDigitsCore] using h
  | succ f ih =>
    intro n ds h
    have hd : (Nat.digitChar (n % 10)).isDigit = true :=
      digitChar_isDigit _ (Nat.mod_lt _ (by omega))
    have hall : ((Nat.digitChar (n % 10)) :: ds).all Char.isDigit = true := by
      simp only [List.all_cons, hd, h, Bool.and_self]
    simp only [Nat.toDigitsCore]
    by_cases hz : n / 10 = 0
    · simpa [hz] using hall
    · rw [if_neg hz]
      exact ih _ _ hall

lemma toDigitsCore_ne_nil_aux :
    ∀ (f n : Nat) (ds : List Char), ds ≠ [] → Nat.toDigitsCore 10 f n ds ≠ [] := by
  intro f
  induction f with
  | zero => intro n ds h; simpa [Nat.toDigitsCore] using h
  | succ f ih =>
    intro n ds _
    simp only [Nat.toDigitsCore]
    by_cases hz : n / 10 = 0
    · simp [hz]
    · rw [if_neg hz]
      exact ih _ _ (List.cons_ne_nil _ _)

lemma toDigits_ne_nil (n : Nat) : Nat.toDigits 10 n ≠ [] := by
  show Nat.toDigitsCore 10 (n + 1) n [] ≠ []
  simp only [Nat.toDigitsCore]
  by_cases hz : n / 10 = 0
  · simp [hz]
  · rw [if_neg hz]
    exact toDigitsCore_ne_nil_aux _ _ _ (List.cons_ne_nil _ _)

lemma toDigits_all_digits (n : Nat) :
    (Nat.toDigits 10 n).all Char.isDigit = true :=
  toDigitsCore_all_digits _ _ _ rfl

lemma parseDigits_toDigits (n : Nat) :
    parseDigits (Nat.toDigits 10 n) = some n := by
  unfold parseDigits
  rw [if_neg (by simpa [List.isEmpty_iff] using toDigits_ne_nil n),
    if_pos (toDigits_all_digits n)]
  have hval := toDigitsCore_digitsVal (n + 1) n [] (Nat.lt_succ_self n)
  simp only [List.length_nil, pow_zero, mul_one, digitsVal_nil, Nat.add_zero] at hval
  exact congrArg some hval

lemma digit_not_space {c : Char} (h : c.isDigit = true) : isSpaceChar c = false := by
  have hge : 48 ≤ c.val := by
    have := (Bool.and_eq_true _ _).mp h |>.1
    simpa [Char.isDigit, decide_eq_true_iff] using this
  unfold isSpaceChar
  simp only [Bool.or_eq_false_iff, beq_eq_false_iff_ne]
  refine ⟨⟨⟨⟨⟨?_, ?_⟩, ?_⟩, ?_⟩, ?_⟩, ?_⟩ <;>
    (rintro rfl; revert hge; decide)

lemma digit_ne_dash {c : Char} (h : c.isDigit = true) : c ≠ '-' := by
  rintro rfl
  revert h
  decide

lemma digit_ne_plus {c : Char} (h : c.isDigit = true) : c ≠ '+' := by
  rintro rfl
  revert h
  decide

lemma dropWhile_eq_self_of_none {p : Char → Bool} {l : List Char}
    (h : ∀ c ∈ l, p c = false) : l.dropWhile p = l := by
  cases l with
  | nil => rfl
  | cons c cs =>
    exact List.dropWhile_cons_of_neg (by simp [h c (by simp)])

lemma pyStrip_eq_self (s : String) (h : ∀ c ∈ s.data, isSpaceChar c = false) :
    pyStrip s = s := by
  unfold pyStrip
  rw [dropWhile_eq_self_of_none h,
    dropWhile_eq_self_of_none (fun c hc => h c (List.mem_reverse.mp hc)),
    List.reverse_reverse]

lemma pyInt_ofNat (m : Nat) : pyInt ⟨Nat.toDigits 10 m⟩ = some (Int.ofNat m) := by
  have hdigits := toDigits_all_digits m
  have hnospace : ∀ c ∈ (⟨Nat.toDigits 10 m⟩ : String).data, isSpaceChar c = false :=
    fun c hc => digit_not_space (List.all_eq_true.mp hdigits c hc)
  unfold pyInt
  rw [pyStrip_eq_self ⟨Nat.toDigits 10 m⟩ hnospace]
  obtain ⟨c, rest, hl⟩ : ∃ c rest, Nat.toDigits 10 m = c :: rest := by
    cases hh : Nat.toDigits 10 m with
    | nil => exact absurd hh (toDigits_ne_nil m)
    | cons c rest => exact ⟨c, rest, rfl⟩
  have hc : c.isDigit = true :=
    List.all_eq_true.mp hdigits c (by rw [hl]; exact List.mem_cons_self _ _)
  have hdata : (⟨Nat.toDigits 10 m⟩ : String).data = c :: rest := hl
  rw [hdata]
  have hparse : parseDigits (c :: rest) = some m := hl ▸ parseDigits_toDigits m
  split
  · next heq => exact absurd (List.cons.injEq .. ▸ heq).1 (digit_ne_dash hc)
  · next heq => exact absurd (List.cons.injEq .. ▸ heq).1 (digit_ne_plus hc)
  · next => rw [hparse]; rfl

lemma toString_int_ofNat (m : Nat) : toString (Int.ofNat m) = ⟨Nat.toDigits 10 m⟩ := rfl

lemma toString_int_negSucc_data (m : Nat) :
    (toString (Int.negSucc m)).data = '-' :: Nat.toDigits 10 (m + 1) := by
  show ("-" ++ Nat.repr (m + 1)).data = _
  rw [String.data_append]
  rfl

lemma pyInt_toString (p : Int) : pyInt (toString p) = some p := by
  cases p with
  | ofNat m => rw [toString_int_ofNat]; exact pyInt_ofNat m
  | negSucc m =>
    have hnospace : ∀ c ∈ (toString (Int.negSucc m)).data, isSpaceChar c = false := by
      rw [toString_int_negSucc_data]
      intro c hc
      rcases List.mem_cons.mp hc with hd | hd
      · subst hd; rfl
      · exact digit_not_space (List.all_eq_true.mp (toDigits_all_digits (m + 1)) c hd)
    unfold pyInt
    rw [pyStrip_eq_self (toString (Int.negSucc m)) hnospace, toString_int_negSucc_data]
    show (parseDigits (Nat.toDigits 10 (m + 1))).map (fun n => -(Int.ofNat n)) =
      some (Int.negSucc m)
    rw [parseDigits_toDigits]
    rfl

lemma toString_int_ne_nil (p : Int) : (toString p).data ≠ [] := by
  cases p with
  | ofNat m => rw [toString_int_ofNat]; exact toDigits_ne_nil m
  | negSucc m => rw [toString_int_negSucc_data]; exact List.cons_ne_nil _ _

lemma toString_int_nospace (p : Int) :
    ∀ c ∈ (toString p).data, isSpaceChar c = false := by
  cases p with
  | ofNat m =>
    rw [toString_int_ofNat]
    exact fun c hc => digit_not_space (List.all_eq_true.mp (toDigits_all_digits m) c hc)
  | negSucc m =>
    rw [toString_int_negSucc_data]
    intro c hc
    rcases List.mem_cons.mp hc with hd | hd
    · subst hd; rfl
    · exact digit_not_space (List.all_eq_true.mp (toDigits_all_digits (m + 1)) c hd)

/-! ### Tokenization of a well-formed record -/

lemma splitWsAux_chunk (xs : List Char) (hx : ∀ c ∈ xs, isSpaceChar c = false) :
    ∀ (rest acc : List Char),
      splitWsAux (xs ++ rest) acc = splitWsAux rest (xs.reverse ++ acc) := by
  induction xs with
  | nil => intro rest acc; simp
  | cons c cs ih =>
    intro rest acc
    have hc : isSpaceChar c = false := hx c (List.mem_cons_self _ _)
    show splitWsAux (c :: (cs ++ rest)) acc = _
    rw [splitWsAux, if_neg (by simp [hc])]
    rw [ih (fun d hd => hx d (List.mem_cons_of_mem _ hd)) rest (c :: acc)]
    congr 1
    simp

lemma splitWsAux_single (t : List Char) (ht : t ≠ [])
    (hx : ∀ c ∈ t, isSpaceChar c = false) : splitWsAux t [] = [⟨t⟩] := by
  have hch := splitWsAux_chunk t hx [] []
  rw [List.append_nil] at hch
  rw [hch, splitWsAux, if_neg (by simp [List.isEmpty_iff, ht]), List.append_nil,
    List.reverse_reverse]

lemma splitWsAux_two (h t : List Char) (hh : h ≠ []) (ht : t ≠ [])
    (hhs : ∀ c ∈ h, isSpaceChar c = false) (hts : ∀ c ∈ t, isSpaceChar c = false) :
    splitWsAux (h ++ ' ' :: t) [] = [⟨h⟩, ⟨t⟩] := by
  rw [splitWsAux_chunk h hhs (' ' :: t) [], List.append_nil, splitWsAux,
    if_pos (by rfl), if_neg (by simp [List.isEmpty_iff, hh]),
    splitWsAux_single t ht hts, List.reverse_reverse]

lemma dropWhile_cons_false {p : Char → Bool} (c : Char) (cs : List Char)
    (hc : p c = false) : (c :: cs).dropWhile p = c :: cs :=
  List.dropWhile_cons_of_neg (by simp [hc])

lemma pyStrip_sandwich (h t : List Char) (hh : h ≠ []) (ht : t ≠ [])
    (hhs : ∀ c ∈ h, isSpaceChar c = false) (hts : ∀ c ∈ t, isSpaceChar c = false) :
    pyStrip ⟨h ++ ' ' :: t⟩ = ⟨h ++ ' ' :: t⟩ := by
  unfold pyStrip
  obtain ⟨hc, h', rfl⟩ : ∃ hc h', h = hc :: h' := by
    cases h with
    | nil => exact absurd rfl hh
    | cons a b => exact ⟨a, b, rfl⟩
  obtain ⟨tc, t', htr⟩ : ∃ tc t', t.reverse = tc :: t' := by
    cases hr : t.reverse with
    | nil => exact absurd (List.reverse_eq_nil_iff.mp hr) ht
    | cons a b => exact ⟨a, b, rfl⟩
  have hfront : ((hc :: h') ++ ' ' :: t).dropWhile isSpaceChar = (hc :: h') ++ ' ' :: t := by
    show (hc :: (h' ++ ' ' :: t)).dropWhile isSpaceChar = _
    exact dropWhile_cons_false _ _ (hhs hc (List.mem_cons_self _ _))
  have hrev : ((hc :: h') ++ ' ' :: t).reverse = tc :: (t' ++ ' ' :: (hc :: h').reverse) := by
    rw [List.reverse_append, List.reverse_cons, htr]
    simp
  have hback : (((hc :: h') ++ ' ' :: t).reverse).dropWhile isSpaceChar =
      ((hc :: h') ++ ' ' :: t).reverse := by
    rw [hrev]
    refine dropWhile_cons_false _ _ ?_
    exact hts tc (List.mem_reverse.mp (htr ▸ List.mem_cons_self _ _))
  rw [hfront, hback, List.reverse_reverse]

/-- Well-formedness of a hostname as the lock protocol needs it: non-empty
and free of whitespace (so the written record tokenizes back into exactly
the hostname and the pid). -/
def wfHost (h : String) : Prop :=
  h.data ≠ [] ∧ ∀ c ∈ h.data, isSpaceChar c = false

instance (h : String) : Decidable (wfHost h) := by
  unfold wfHost
  exact instDecidableAnd

lemma mkRecord_data (id : Ident) :
    (mkRecord id).data = id.hostname.data ++ ' ' :: (toString id.pid).data := by
  show (id.hostname ++ " " ++ toString id.pid).data = _
  rw [String.data_append, String.data_append]
  simp

lemma mkRecord_tokens (id : Ident) (hwf : wfHost id.hostname)
    (hlen : (mkRecord id).data.length ≤ 1024) :
    pySplit (pyStrip (pyRead1024 (mkRecord id))) = [id.hostname, toString id.pid] := by
  have hread : pyRead1024 (mkRecord id) = mkRecord id := by
    unfold pyRead1024
    rw [List.take_of_length_le hlen]
  rw [hread]
  have hstrip : pyStrip (mkRecord id) = mkRecord id := by
    have : pyStrip ⟨id.hostname.data ++ ' ' :: (toString id.pid).data⟩ =
        ⟨id.hostname.data ++ ' ' :: (toString id.pid).data⟩ :=
      pyStrip_sandwich _ _ hwf.1 (toString_int_ne_nil id.pid) hwf.2
        (toString_int_nospace id.pid)
    have heq : (⟨(mkRecord id).data⟩ : String) = mkRecord id := rfl
    rw [mkRecord_data] at heq
    rw [← heq]
    exact this
  rw [hstrip]
  show splitWsAux (mkRecord id).data [] = _
  rw [mkRecord_data]
  rw [splitWsAux_two _ _ hwf.1 (toString_int_ne_nil id.pid) hwf.2
    (toString_int_nospace id.pid)]

lemma verify_own_record (st : FS) (id : Ident) (hwf : wfHost id.hostname)
    (hlen : (mkRecord id).data.length ≤ 1024)
    (hacq : st.acquiredFile = some (mkRecord id))
    (hread : st.acquiredReadable = true) :
    verify st id = true := by
  unfold verify
  rw [hacq, hread]
  simp [mkRecord_tokens id hwf hlen, pyInt_toString]

/-! ### The lockgroup barrier wait -/

/-- Outcome of `os.rmdir(self.lockgroup)` inside `wait`'s loop. -/
inductive RmdirResult where
  | ok
  | errENOTEMPTY
  | errENOENT
  | errOtherOS
deriving DecidableEq, Repr

/-- Result of a `wait` call: `done` models `return 1`, `timedOut` the
`MultiLockTimeoutException`, `fatal` a re-raised unexpected `OSError`. -/
inductive WaitResult where
  | done
  | timedOut
  | fatal
deriving DecidableEq, Repr

/-- External observations `wait` makes on iteration `n` of its loop:
the elapsed time `time.time() - start_time` at the timeout check, whether
`os.path.isdir(self.lockgroup)` holds, and what `os.rmdir(self.lockgroup)`
returns when attempted. -/
structure WaitEnv where
  elapsed : Nat → ℚ
  isdir : Nat → Bool
  rmdirRes : Nat → RmdirResult

/-- `MultiLock.wait(timeout)` body, one recursive step per `while True`
iteration (`fuel` bounds how many iterations we unroll; `none` means the
loop was still running after `fuel` iterations).  Each iteration: the
timeout test comes FIRST and raises `MultiLockTimeoutException` whenever
the elapsed time meets or exceeds the timeout; otherwise, if the lockgroup
directory exists, sleep `self.poll` seconds and attempt `os.rmdir`
(`ENOTEMPTY` and `ENOENT` are passed over and the loop continues; other
`OSError`s re-raise); otherwise fall through to `return 1`.  A successful
`rmdir` also falls through to `return 1`.  The list accumulates the
seconds slept (`time.sleep(self.poll)`) before each probe. -/
def waitLoop (lk : Lock) (env : WaitEnv) (timeout : Int) :
    Nat → Nat → Option (WaitResult × List Int)
  | 0, _ => none
  | fuel + 1, n =>
    if env.elapsed n ≥ (timeout : ℚ) then some (.timedOut, [])
    else if env.isdir n then
      match env.rmdirRes n with
      | .ok => some (.done, [lk.poll])
      | .errENOTEMPTY =>
        (waitLoop lk env timeout fuel (n + 1)).map (fun r => (r.1, lk.poll :: r.2))
      | .errENOENT =>
        (waitLoop lk env timeout fuel (n + 1)).map (fun r => (r.1, lk.poll :: r.2))
      | .errOtherOS => some (.fatal, [lk.poll])
    else some (.done, [])

/-- Iteration `j` neither stops nor returns: timeout not yet reached, the
lockgroup directory still exists, and its removal fails with `ENOTEMPTY`
or `ENOENT` (the two errnos the loop passes over). -/
def continuesAt (env : WaitEnv) (timeout : Int) (j : Nat) : Prop :=
  env.elapsed j < (timeout : ℚ) ∧ env.isdir j = true ∧
    (env.rmdirRes j = .errENOTEMPTY ∨ env.rmdirRes j = .errENOENT)

/-- Iteration `k` raises the timeout: the elapsed time meets or exceeds
the timeout (checked before the directory's existence). -/
def timesOutAt (env : WaitEnv) (timeout : Int) (k : Nat) : Prop :=
  (timeout : ℚ) ≤ env.elapsed k

/-- Iteration `k` returns success: timeout not reached and either the
lockgroup directory no longer exists or this caller's `rmdir` removed
it. -/
def succeedsAt (env : WaitEnv) (timeout : Int) (k : Nat) : Prop :=
  env.elapsed k < (timeout : ℚ) ∧
    (env.isdir k = false ∨ (env.isdir k = true ∧ env.rmdirRes k = .ok))

lemma waitLoop_timedOut_iff (lk : Lock) (env : WaitEnv) (timeout : Int) :
    ∀ (fuel n : Nat),
      (∃ s, waitLoop lk env timeout fuel n = some (.timedOut, s)) ↔
        ∃ k, n ≤ k ∧ k < n + fuel ∧
          (∀ j, n ≤ j → j < k → continuesAt env timeout j) ∧
          timesOutAt env timeout k := by
  intro fuel
  induction fuel with
  | zero =>
    intro n
    constructor
    · rintro ⟨s, hs⟩; simp [waitLoop] at hs
    · rintro ⟨k, h1, h2, _⟩; omega
  | succ fuel ih =>
    intro n
    rw [waitLoop]
    by_cases htime : env.elapsed n ≥ (timeout : ℚ)
    · rw [if_pos htime]
      constructor
      · rintro ⟨s, hs⟩
        exact ⟨n, le_refl n, by omega, fun j h1 h2 => absurd h1 (by omega), htime⟩
      · rintro ⟨k, _, _, _, _⟩
        exact ⟨[], rfl⟩
    · rw [if_neg htime]
      have hlt : env.elapsed n < (timeout : ℚ) := lt_of_not_le htime
      by_cases hdir : env.isdir n
      · rw [if_pos hdir]
        cases hrm : env.rmdirRes n with
        | ok =>
          constructor
          · rintro ⟨s, hs⟩; simp at hs
          · rintro ⟨k, h1, h2, hcont, hstop⟩
            rcases Nat.eq_or_lt_of_le h1 with rfl | hk
            · exact absurd hstop (not_le.mpr hlt)
            · rcases (hcont n (le_refl n) hk).2.2 with he | he <;> simp [hrm] at he
        | errENOTEMPTY =>
          constructor
          · rintro ⟨s, hs⟩
            rcases hmap : waitLoop lk env timeout fuel (n + 1) with _ | ⟨r, s'⟩
            · rw [hmap] at hs; simp at hs
            · rw [hmap] at hs
              have hr : r = WaitResult.timedOut ∧ lk.poll :: s' = s := by
                simpa using hs
              obtain ⟨k, h1, h2, hcont, hstop⟩ := (ih (n + 1)).mp
                ⟨s', by rw [hmap, hr.1]⟩
              refine ⟨k, by omega, by omega, ?_, hstop⟩
              intro j hj1 hj2
              rcases Nat.eq_or_lt_of_le hj1 with rfl | hj
              · exact ⟨hlt, hdir, Or.inl hrm⟩
              · exact hcont j (by omega) hj2
          · rintro ⟨k, h1, h2, hcont, hstop⟩
            have hk : n + 1 ≤ k := by
              rcases Nat.eq_or_lt_of_le h1 with rfl | hk
              · exact absurd hstop (not_le.mpr hlt)
              · omega
            obtain ⟨s', hs'⟩ := (ih (n + 1)).mpr
              ⟨k, hk, by omega, fun j hj1 hj2 => hcont j (by omega) hj2, hstop⟩
            exact ⟨lk.poll :: s', by rw [hs']; rfl⟩
        | errENOENT =>
          constructor
          · rintro ⟨s, hs⟩
            rcases hmap : waitLoop lk env timeout fuel (n + 1) with _ | ⟨r, s'⟩
            · rw [hmap] at hs; simp at hs
            · rw [hmap] at hs
              have hr : r = WaitResult.timedOut ∧ lk.poll :: s' = s := by
                simpa using hs
              obtain ⟨k, h1, h2, hcont, hstop⟩ := (ih (n + 1)).mp
                ⟨s', by rw [hmap, hr.1]⟩
              refine ⟨k, by omega, by omega, ?_, hstop⟩
              intro j hj1 hj2
              rcases Nat.eq_or_lt_of_le hj1 with rfl | hj
              · exact ⟨hlt, hdir, Or.inr hrm⟩
              · exact hcont j (by omega) hj2
          · rintro ⟨k, h1, h2, hcont, hstop⟩
            have hk : n + 1 ≤ k := by
              rcases Nat.eq_or_lt_of_le h1 with rfl | hk
              · exact absurd hstop (not_le.mpr hlt)
              · omega
            obtain ⟨s', hs'⟩ := (ih (n + 1)).mpr
              ⟨k, hk, by omega, fun j hj1 hj2 => hcont j (by omega) hj2, hstop⟩
            exact ⟨lk.poll :: s', by rw [hs']; rfl⟩
        | errOtherOS =>
          constructor
          · rintro ⟨s, hs⟩; simp at hs
          · rintro ⟨k, h1, h2, hcont, hstop⟩
            rcases Nat.eq_or_lt_of_le h1 with rfl | hk
            · exact absurd hstop (not_le.mpr hlt)
            · rcases (hcont n (le_refl n) hk).2.2 with he | he <;> simp [hrm] at he
      · rw [if_neg hdir]
        constructor
        · rintro ⟨s, hs⟩; simp at hs
        · rintro ⟨k, h1, h2, hcont, hstop⟩
          rcases Nat.eq_or_lt_of_le h1 with rfl | hk
          · exact absurd hstop (not_le.mpr hlt)
          · exact absurd (hcont n (le_refl n) hk).2.1 (by simp [hdir])

lemma waitLoop_done_iff (lk : Lock) (env : WaitEnv) (timeout : Int) :
    ∀ (fuel n : Nat),
      (∃ s, waitLoop lk env timeout fuel n = some (.done, s)) ↔
        ∃ k, n ≤ k ∧ k < n + fuel ∧
          (∀ j, n ≤ j → j < k → continuesAt env timeout j) ∧
          succeedsAt env timeout k := by
  intro fuel
  induction fuel with
  | zero =>
    intro n
    constructor
    · rintro ⟨s, hs⟩; simp [waitLoop] at hs
    · rintro ⟨k, h1, h2, _⟩; omega
  | succ fuel ih =>
    intro n
    rw [waitLoop]
    by_cases htime : env.elapsed n ≥ (timeout : ℚ)
    · rw [if_pos htime]
      constructor
      · rintro ⟨s, hs⟩; simp at hs
      · rintro ⟨k, h1, h2, hcont, hstop⟩
        rcases Nat.eq_or_lt_of_le h1 with rfl | hk
        · exact absurd hstop.1 (not_lt.mpr htime)
        · exact absurd (hcont n (le_refl n) hk).1 (not_lt.mpr htime)
    · rw [if_neg htime]
      have hlt : env.elapsed n < (timeout : ℚ) := lt_of_not_le htime
      by_cases hdir : env.isdir n
      · rw [if_pos hdir]
        cases hrm : env.rmdirRes n with
        | ok =>
          constructor
          · rintro ⟨s, hs⟩
            exact ⟨n, le_refl n, by omega, fun j h1 h2 => absurd h1 (by omega),
              hlt, Or.inr ⟨hdir, hrm⟩⟩
          · rintro ⟨k, _, _, _, _⟩
            exact ⟨[lk.poll], rfl⟩
        | errENOTEMPTY =>
          constructor
          · rintro ⟨s, hs⟩
            rcases hmap : waitLoop lk env timeout fuel (n + 1) with _ | ⟨r, s'⟩
            · rw [hmap] at hs; simp at hs
            · rw [hmap] at hs
              have hr : r = WaitResult.done ∧ lk.poll :: s' = s := by
                simpa using hs
              obtain ⟨k, h1, h2, hcont, hstop⟩ := (ih (n + 1)).mp
                ⟨s', by rw [hmap, hr.1]⟩
              refine ⟨k, by omega, by omega, ?_, hstop⟩
              intro j hj1 hj2
              rcases Nat.eq_or_lt_of_le hj1 with rfl | hj
              · exact ⟨hlt, hdir, Or.inl hrm⟩
              · exact hcont j (by omega) hj2
          · rintro ⟨k, h1, h2, hcont, hstop⟩
            have hk : n + 1 ≤ k := by
              rcases Nat.eq_or_lt_of_le h1 with rfl | hk
              · rcases hstop.2 with he | he
                · exact absurd hdir (by simp [he])
                · rw [hrm] at he; simp at he
              · omega
            obtain ⟨s', hs'⟩ := (ih (n + 1)).mpr
              ⟨k, hk, by omega, fun j hj1 hj2 => hcont j (by omega) hj2, hstop⟩
            exact ⟨lk.poll :: s', by rw [hs']; rfl⟩
        | errENOENT =>
          constructor
          · rintro ⟨s, hs⟩
            rcases hmap : waitLoop lk env timeout fuel (n + 1) with _ | ⟨r, s'⟩
            · rw [hmap] at hs; simp at hs
            · rw [hmap] at hs
              have hr : r = WaitResult.done ∧ lk.poll :: s' = s := by
                simpa using hs
              obtain ⟨k, h1, h2, hcont, hstop⟩ := (ih (n + 1)).mp
                ⟨s', by rw [hmap, hr.1]⟩
              refine ⟨k, by omega, by omega, ?_, hstop⟩
              intro j hj1 hj2
              rcases Nat.eq_or_lt_of_le hj1 with rfl | hj
              · exact ⟨hlt, hdir, Or.inr hrm⟩
              · exact hcont j (by omega) hj2
          · rintro ⟨k, h1, h2, hcont, hstop⟩
            have hk : n + 1 ≤ k := by
              rcases Nat.eq_or_lt_of_le h1 with rfl | hk
              · rcases hstop.2 with he | he
                · exact absurd hdir (by simp [he])
                · rw [hrm] at he; simp at he
              · omega
            obtain ⟨s', hs'⟩ := (ih (n + 1)).mpr
              ⟨k, hk, by omega, fun j hj1 hj2 => hcont j (by omega) hj2, hstop⟩
            exact ⟨lk.poll :: s', by rw [hs']; rfl⟩
        | errOtherOS =>
          constructor
          · rintro ⟨s, hs⟩; simp at hs
          · rintro ⟨k, h1, h2, hcont, hstop⟩
            rcases Nat.eq_or_lt_of_le h1 with rfl | hk
            · rcases hstop.2 with he | he
              · exact absurd hdir (by simp [he])
              · rw [hrm] at he; simp at he
            · rcases (hcont n (le_refl n) hk).2.2 with he | he <;> simp [hrm] at he
      · rw [if_neg hdir]
        constructor
        · rintro ⟨s, hs⟩
          exact ⟨n, le_refl n, by omega, fun j h1 h2 => absurd h1 (by omega),
            hlt, Or.inl (by simpa using hdir)⟩
        · rintro ⟨k, _, _, _, _⟩
          exact ⟨[], rfl⟩

lemma some_pair_inj {A B : Type} {a c : A} {b d : B}
    (h : some (a, b) = some (c, d)) : a = c ∧ b = d := by
  injection h with h1
  exact ⟨congrArg Prod.fst h1, congrArg Prod.snd h1⟩

lemma waitLoop_sleeps (lk : Lock) (env : WaitEnv) (timeout : Int) :
    ∀ (fuel n : Nat) (r : WaitResult) (s : List Int),
      waitLoop lk env timeout fuel n = some (r, s) → ∀ x ∈ s, x = lk.poll := by
  intro fuel
  induction fuel with
  | zero => intro n r s hs; simp [waitLoop] at hs
  | succ fuel ih =>
    intro n r s hs
    rw [waitLoop] at hs
    by_cases htime : env.elapsed n ≥ (timeout : ℚ)
    · rw [if_pos htime] at hs
      obtain ⟨-, h2⟩ := some_pair_inj hs
      subst h2
      simp
    · rw [if_neg htime] at hs
      by_cases hdir : env.isdir n
      · rw [if_pos hdir] at hs
        cases hrm : env.rmdirRes n <;> rw [hrm] at hs
        · obtain ⟨-, h2⟩ := some_pair_inj hs
          subst h2
          simp
        · rcases hmap : waitLoop lk env timeout fuel (n + 1) with _ | ⟨r2, s2⟩ <;>
            rw [hmap] at hs
          · simp at hs
          · rw [Option.map_some'] at hs
            obtain ⟨-, h2⟩ := some_pair_inj hs
            subst h2
            intro x hx
            rcases List.mem_cons.mp hx with rfl | hx2
            · rfl
            · exact ih (n + 1) r2 s2 hmap x hx2
        · rcases hmap : waitLoop lk env timeout fuel (n + 1) with _ | ⟨r2, s2⟩ <;>
            rw [hmap] at hs
          · simp at hs
          · rw [Option.map_some'] at hs
            obtain ⟨-, h2⟩ := some_pair_inj hs
            subst h2
            intro x hx
            rcases List.mem_cons.mp hx with rfl | hx2
            · rfl
            · exact ih (n + 1) r2 s2 hmap x hx2
        · obtain ⟨-, h2⟩ := some_pair_inj hs
          subst h2
          simp
      · rw [if_neg hdir] at hs
        obtain ⟨-, h2⟩ := some_pair_inj hs
        subst h2
        simp

/-! ### Inversion of `verify` -/

lemma verify_reduce (st : FS) (id : Ident) (content : String)
    (hacq : st.acquiredFile = some content) (hread : st.acquiredReadable = true) :
    verify st id = (match pySplit (pyStrip (pyRead1024 content)) with
      | [qhostname, qpid] =>
        if qhostname = id.hostname then
          match pyInt qpid with
          | some p => p == id.pid
          | none => false
        else false
      | _ => false) := by
  unfold verify
  rw [hacq, hread]

lemma verify_eq_true_iff (st : FS) (id : Ident) :
    verify st id = true ↔
      ∃ content, st.acquiredFile = some content ∧ st.acquiredReadable = true ∧
        ∃ qp, pySplit (pyStrip (pyRead1024 content)) = [id.hostname, qp] ∧
          pyInt qp = some id.pid := by
  rcases hacq : st.acquiredFile with _ | content
  · constructor
    · intro h
      unfold verify at h
      rw [hacq] at h
      simp at h
    · rintro ⟨c, hc, -⟩
      exact absurd hc (by simp)
  · cases hread : st.acquiredReadable
    · constructor
      · intro h
        unfold verify at h
        rw [hacq, hread] at h
        simp at h
      · rintro ⟨c, -, hr, -⟩
        exact absurd hr (by simp)
    · rw [verify_reduce st id content hacq hread]
      rcases htok : pySplit (pyStrip (pyRead1024 content)) with _ | ⟨qh, rest⟩
      · constructor
        · intro h
          exact absurd h (by simp)
        · rintro ⟨c2, hc2, -, qp2, htok2, -⟩
          obtain rfl : c2 = content := by injection hc2 with h1; exact h1.symm
          rw [htok] at htok2
          exact absurd htok2 (by simp)
      · rcases rest with _ | ⟨qp, rest2⟩
        · constructor
          · intro h
            exact absurd h (by simp)
          · rintro ⟨c2, hc2, -, qp2, htok2, -⟩
            obtain rfl : c2 = content := by injection hc2 with h1; exact h1.symm
            rw [htok] at htok2
            exact absurd htok2 (by simp)
        · rcases rest2 with _ | ⟨x, rest3⟩
          · constructor
            · intro h
              by_cases hqa : qh = id.hostname
              · rcases hint : pyInt qp with _ | p
                · simp [hqa, hint] at h
                · have hp : p = id.pid := by simpa [hqa, hint] using h
                  exact ⟨content, rfl, rfl, qp, by rw [htok, hqa],
                    by rw [hint, hp]⟩
              · simp [hqa] at h
            · rintro ⟨c2, hc2, -, qp2, htok2, hint2⟩
              obtain rfl : c2 = content := by injection hc2 with h1; exact h1.symm
              rw [htok] at htok2
              obtain ⟨h1, h2⟩ : qh = id.hostname ∧ qp = qp2 := by simpa using htok2
              simp [h1, h2, hint2]
          · constructor
            · intro h
              exact absurd h (by simp)
            · rintro ⟨c2, hc2, -, qp2, htok2, -⟩
              obtain rfl : c2 = content := by injection hc2 with h1; exact h1.symm
              rw [htok] at htok2
              exact absurd htok2 (by simp)

/-- C1: Mutual exclusion — in any one filesystem state (what all racing
identities observe at one instant), at most one identity can see
`verify() == true`: the acquired file's record parses to a single
(hostname, pid) pair, so two identities that both verify successfully are
the same identity. -/
theorem C1_mutual_exclusion (st : FS) (a b : Ident)
    (ha : verify st a = true) (hb : verify st b = true) : a = b := by
  obtain ⟨c, hc, hr, qp, htok, hint⟩ := (verify_eq_true_iff st a).mp ha
  obtain ⟨c', hc', hr', qp', htok', hint'⟩ := (verify_eq_true_iff st b).mp hb
  rw [hc] at hc'
  obtain rfl : c = c' := by injection hc'
  rw [htok] at htok'
  obtain ⟨hhost, rfl⟩ : a.hostname = b.hostname ∧ qp = qp' := by
    simpa using htok'
  rw [hint] at hint'
  have hpid : a.pid = b.pid := by injection hint'
  cases a; cases b
  simp_all

/-- Witness for C1: a concrete state whose acquired file reads "h 5",
where the identity (h, 5) verifies successfully. -/
theorem C1_mutual_exclusion_witness :
    verify ⟨true, false, true, 0, none, some ("h 5"), true⟩ ⟨"h", 5⟩ = true ∧
      (⟨"h", 5⟩ : Ident) = ⟨"h", 5⟩ :=
  ⟨by decide, C1_mutual_exclusion ⟨true, false, true, 0, none, some ("h 5"), true⟩
    ⟨"h", 5⟩ ⟨"h", 5⟩ (by decide) (by decide)⟩

/-- C7: Verify contract — `verify()` returns true if and only if the
acquired file exists, can be opened and read (the read returns at most the
first 1024 bytes), the text parses into exactly two whitespace-separated
tokens, and those tokens equal the caller's recorded hostname and pid
(the pid token compared through `int(...)`, so a sentinel `-1` matches a
stored `-1` exactly); `verify` is a total boolean function of the state —
every failure is swallowed and reported as `false`, never an exception. -/
theorem C7_verify_contract (st : FS) (id : Ident) :
    verify st id = true ↔
      ∃ content, st.acquiredFile = some content ∧ st.acquiredReadable = true ∧
        ∃ qhostname qpid,
          pySplit (pyStrip (pyRead1024 content)) = [qhostname, qpid] ∧
          qhostname = id.hostname ∧ pyInt qpid = some id.pid := by
  rw [verify_eq_true_iff]
  constructor
  · rintro ⟨c, h1, h2, qp, h3, h4⟩
    exact ⟨c, h1, h2, id.hostname, qp, h3, rfl, h4⟩
  · rintro ⟨c, h1, h2, qh, qp, h3, rfl, h4⟩
    exact ⟨c, h1, h2, qp, h3, h4⟩

/-! ### Reduction lemmas for `cleanup` and `acquire` -/

lemma cleanupAge_none (st : FS) (env : Env) : cleanupAge st none env = st := by
  unfold cleanupAge truthyMaxage
  simp

lemma cleanup_none_eq (st : FS) (id : Ident) (env : Env) :
    cleanup st id none env = cleanupLive st id env := by
  unfold cleanup
  rw [cleanupAge_none]

lemma readTwoTokens_some (st : FS) (content qh qp : String)
    (hread : st.acquiredReadable = true)
    (htok : pySplit (pyStrip content) = [qh, qp]) :
    readTwoTokens st content = some (qh, qp) := by
  unfold readTwoTokens
  rw [hread, htok]
  rfl

lemma cleanupLive_parsed (st : FS) (id : Ident) (env : Env) (content qh qp : String)
    (hacq : st.acquiredFile = some content)
    (hparse : readTwoTokens st content = some (qh, qp)) :
    cleanupLive st id env =
      (if qh = id.hostname then
        match pyInt qp with
        | none => .error .valueError
        | some p =>
          if p < 0 then .ok (true, st)
          else if p > 0 then
            match env.alive p with
            | .errOther => .ok (true, removeLockDir st)
            | .errEPERM => .ok (false, st)
            | .ok => .ok (false, st)
          else .ok (false, st)
      else .ok (false, st)) := by
  unfold cleanupLive
  rw [hacq]
  simp only [hparse]

lemma verify_no_acquired (st : FS) (id : Ident) (h : st.acquiredFile = none) :
    verify st id = false := by
  unfold verify
  rw [h]

/-- C2 (amended): for every identity that currently holds the lock
(`verify()` true), calling `acquire()` again leaves the filesystem state
unchanged but returns failure (`0`), not success: the `if not
self.verify():` guard skips the whole body and the method falls through
to `return 0`. -/
theorem C2_reacquire_returns_failure (st : FS) (id : Ident) (maxage : Option Int)
    (env : Env) (h : verify st id = true) :
    acquire st id maxage env = .ok (false, st) := by
  unfold acquire
  rw [if_pos h]

/-- A state in which identity `(h, 5)` holds the lock `spam`:
the acquired file records "h 5". -/
def stHeldC2 : FS := ⟨true, false, true, 0, none, some ("h 5"), true⟩

/-- Probe environment where every pid is reported alive. -/
def envAllAlive : Env := ⟨100, fun _ => KillResult.ok⟩

/-- Counterexample to C2 as stated: the identity `(h, 5)` verifiably holds
the lock, yet `acquire()` returns `0` (failure), not success — while
indeed leaving the state unchanged. -/
theorem C2_counterexample :
    verify stHeldC2 ⟨"h", 5⟩ = true ∧
      acquire stHeldC2 ⟨"h", 5⟩ none envAllAlive = .ok (false, stHeldC2) ∧
      (Except.ok (false, stHeldC2) : Except PyError (Bool × FS)) ≠
        .ok (true, stHeldC2) := by
  exact ⟨by decide, rfl, by simp⟩

/-- Witness for the amended C2 theorem at a concrete holder state. -/
theorem C2_reacquire_returns_failure_witness :
    verify stHeldC2 ⟨"h", 5⟩ = true ∧
      acquire stHeldC2 ⟨"h", 5⟩ (some 30) envAllAlive = .ok (false, stHeldC2) :=
  ⟨by decide, C2_reacquire_returns_failure stHeldC2 ⟨"h", 5⟩ (some 30) envAllAlive
    (by decide)⟩

/-- C3: Cleanup liveness decision with no age threshold.
(1) A record naming a foreign host: the lock directory is never removed
and `cleanup` returns false, whatever the local liveness probe would say.
(2) A record naming the local host with a positive pid whose probe raises
a non-`EPERM` `OSError` (process not running): the directory is removed
and `cleanup` returns true.
(3) A record naming the local host with a positive pid that is running
(probe succeeds) or whose probe is denied with `EPERM` (conservatively
alive): `cleanup` returns false and leaves the state unchanged. -/
theorem C3_cleanup_liveness_decision :
    (∀ (st : FS) (id : Ident) (env : Env) (content qh qp : String),
      st.acquiredFile = some content → st.acquiredReadable = true →
      pySplit (pyStrip content) = [qh, qp] → qh ≠ id.hostname →
      cleanup st id none env = .ok (false, st)) ∧
    (∀ (st : FS) (id : Ident) (env : Env) (content qp : String) (p : Int),
      st.acquiredFile = some content → st.acquiredReadable = true →
      pySplit (pyStrip content) = [id.hostname, qp] → pyInt qp = some p →
      0 < p → env.alive p = .errOther →
      cleanup st id none env = .ok (true, removeLockDir st)) ∧
    (∀ (st : FS) (id : Ident) (env : Env) (content qp : String) (p : Int),
      st.acquiredFile = some content → st.acquiredReadable = true →
      pySplit (pyStrip content) = [id.hostname, qp] → pyInt qp = some p →
      0 < p → (env.alive p = .ok ∨ env.alive p = .errEPERM) →
      cleanup st id none env = .ok (false, st)) := by
  refine ⟨?_, ?_, ?_⟩
  · intro st id env content qh qp hacq hread htok hqh
    rw [cleanup_none_eq,
      cleanupLive_parsed st id env content qh qp hacq
        (readTwoTokens_some st content qh qp hread htok),
      if_neg hqh]
  · intro st id env content qp p hacq hread htok hint hp halive
    rw [cleanup_none_eq,
      cleanupLive_parsed st id env content id.hostname qp hacq
        (readTwoTokens_some st content id.hostname qp hread htok),
      if_pos rfl]
    simp only [hint]
    rw [if_neg (by omega), if_pos hp, halive]
  · intro st id env content qp p hacq hread htok hint hp halive
    rw [cleanup_none_eq,
      cleanupLive_parsed st id env content id.hostname qp hacq
        (readTwoTokens_some st content id.hostname qp hread htok),
      if_pos rfl]
    simp only [hint]
    rw [if_neg (by omega), if_pos hp]
    rcases halive with h | h <;> rw [h]

/-- State with a foreign-host record "x 7". -/
def stForeignC3 : FS := ⟨true, false, true, 0, none, some ("x 7"), true⟩

/-- State with a local-host record "h 9" (pid 9 dead below). -/
def stDeadC3 : FS := ⟨true, false, true, 0, none, some ("h 9"), true⟩

/-- State with a local-host record "h 12" (pid 12 alive below). -/
def stLiveC3 : FS := ⟨true, false, true, 0, none, some ("h 12"), true⟩

/-- Probe environment: pid 9 is not running (`ESRCH`), pid 11 is
permission-denied (`EPERM`), everything else is alive. -/
def envC3 : Env :=
  ⟨0, fun p => if p = 9 then .errOther else if p = 11 then .errEPERM else .ok⟩

/-- Witness for C3 at concrete states: foreign host kept (false), dead
local pid reclaimed (true), live local pid kept (false). -/
theorem C3_cleanup_liveness_decision_witness :
    cleanup stForeignC3 ⟨"h", 5⟩ none envC3 = .ok (false, stForeignC3) ∧
      cleanup stDeadC3 ⟨"h", 5⟩ none envC3 = .ok (true, removeLockDir stDeadC3) ∧
      cleanup stLiveC3 ⟨"h", 5⟩ none envC3 = .ok (false, stLiveC3) :=
  ⟨C3_cleanup_liveness_decision.1 stForeignC3 ⟨"h", 5⟩ envC3 ("x 7") "x" "7"
      rfl rfl (by decide) (by decide),
   C3_cleanup_liveness_decision.2.1 stDeadC3 ⟨"h", 5⟩ envC3 ("h 9") "9" 9
      rfl rfl (by decide) (by decide) (by decide) (by decide),
   C3_cleanup_liveness_decision.2.2 stLiveC3 ⟨"h", 5⟩ envC3 ("h 12") "12" 12
      rfl rfl (by decide) (by decide) (by decide) (Or.inl (by decide))⟩

/-- C5 (amended): when the acquired file records the local host with the
sentinel pid `-1` (indeed any negative pid), `cleanup()` leaves the lock
directory and state intact but returns TRUE (`1`), not false — the
`if int(qpid) < 0: return 1` branch reports success despite the lock
remaining in place. -/
theorem C5_persistent_lock_cleanup (st : FS) (id : Ident) (env : Env)
    (content qp : String) (p : Int)
    (hacq : st.acquiredFile = some content) (hread : st.acquiredReadable = true)
    (htok : pySplit (pyStrip content) = [id.hostname, qp])
    (hint : pyInt qp = some p) (hp : p < 0) :
    cleanup st id none env = .ok (true, st) := by
  rw [cleanup_none_eq,
    cleanupLive_parsed st id env content id.hostname qp hacq
      (readTwoTokens_some st content id.hostname qp hread htok),
    if_pos rfl]
  simp only [hint]
  rw [if_pos hp]

/-- State with a local-host persistent record "h -1". -/
def stNohupC5 : FS := ⟨true, false, true, 0, none, some ("h -1"), true⟩

/-- Counterexample to C5 as stated: on the persistent record "h -1",
`cleanup()` returns true (1), not the claimed false — the lock stays but
the call reports success. -/
theorem C5_counterexample :
    cleanup stNohupC5 ⟨"h", 5⟩ none envAllAlive = .ok (true, stNohupC5) ∧
      (Except.ok (true, stNohupC5) : Except PyError (Bool × FS)) ≠
        .ok (false, stNohupC5) := by
  exact ⟨rfl, by simp⟩

/-- Witness for the amended C5 theorem: pid -2 (any negative) also takes
the persistent branch. -/
theorem C5_persistent_lock_cleanup_witness :
    cleanup ⟨true, false, true, 0, none, some ("h -2"), true⟩ ⟨"h", 5⟩ none
      envAllAlive = .ok (true, ⟨true, false, true, 0, none, some ("h -2"), true⟩) :=
  C5_persistent_lock_cleanup ⟨true, false, true, 0, none, some ("h -2"), true⟩
    ⟨"h", 5⟩ envAllAlive ("h -2") "-2" (-2) rfl rfl (by decide) (by decide)
    (by decide)

/-- C6 (amended): malformed acquired-file records are non-fatal in
`cleanup()` with one exception.  (1) A record that cannot be read or does
not split into exactly two tokens parses to `(None, None)`, never equals
the local hostname, and `cleanup` returns false leaving the state
unchanged.  (2) But a readable two-token record whose first token equals
the local hostname and whose second token is not a valid integer makes
`int(qpid)` raise an uncaught `ValueError` (only `OSError` is caught
there): `cleanup` raises instead of returning. -/
theorem C6_malformed_record_cleanup :
    (∀ (st : FS) (id : Ident) (env : Env) (content : String),
      st.acquiredFile = some content → readTwoTokens st content = none →
      cleanup st id none env = .ok (false, st)) ∧
    (∀ (st : FS) (id : Ident) (env : Env) (content qp : String),
      st.acquiredFile = some content →
      readTwoTokens st content = some (id.hostname, qp) → pyInt qp = none →
      cleanup st id none env = .error .valueError) := by
  constructor
  · intro st id env content hacq hnone
    rw [cleanup_none_eq]
    unfold cleanupLive
    rw [hacq]
    simp only [hnone]
  · intro st id env content qp hacq hparse hint
    rw [cleanup_none_eq,
      cleanupLive_parsed st id env content id.hostname qp hacq hparse,
      if_pos rfl]
    simp only [hint]

/-- State whose record "h spam" has a local hostname and a non-integer
pid token. -/
def stBadPidC6 : FS := ⟨true, false, true, 0, none, some ("h spam"), true⟩

/-- State whose record "justonetoken" has the wrong token count. -/
def stOneTokC6 : FS := ⟨true, false, true, 0, none, some ("justonetoken"), true⟩

/-- Counterexample to C6 as stated: on the record "h spam" (local host,
non-integer pid), `cleanup()` raises `ValueError` instead of being
non-fatal. -/
theorem C6_counterexample :
    cleanup stBadPidC6 ⟨"h", 4⟩ none envAllAlive = .error .valueError := rfl

/-- Witness for the amended C6 theorem at concrete malformed records. -/
theorem C6_malformed_record_cleanup_witness :
    cleanup stOneTokC6 ⟨"h", 4⟩ none envAllAlive = .ok (false, stOneTokC6) ∧
      cleanup stBadPidC6 ⟨"h", 4⟩ none envAllAlive = .error .valueError :=
  ⟨C6_malformed_record_cleanup.1 stOneTokC6 ⟨"h", 4⟩ envAllAlive ("justonetoken")
      rfl (by decide),
   C6_malformed_record_cleanup.2 stBadPidC6 ⟨"h", 4⟩ envAllAlive ("h spam") "spam"
      rfl (by decide) (by decide)⟩

/-! ### Acquisition after reclamation -/

/-- The filesystem state after a successful create/write/rename sequence
starting from `st1`: group and lock directory exist, the directory's
mtime is the acquisition time, the pending file has been renamed away and
the acquired file holds this identity's record. -/
def postAcquireState (st1 : FS) (id : Ident) (env : Env) : FS :=
  { st1 with lockgroupExists := true, lockDirExists := true, lockDirMtime := env.now, pendingFile := none, acquiredFile := some (mkRecord id), acquiredReadable := true }

lemma acquire_not_held_none (st : FS) (id : Ident) (env : Env)
    (hv : verify st id = false) :
    acquire st id none env = acquireAttempt st id env := by
  unfold acquire
  rw [if_neg (by simp [hv])]
  rfl

lemma acquire_not_held_maxage (st : FS) (id : Ident) (env : Env) (m : Int)
    (hv : verify st id = false) (ht : truthyMaxage (some m) = true)
    (b : Bool) (st1 : FS) (hclean : cleanup st id (some m) env = .ok (b, st1)) :
    acquire st id (some m) env = acquireAttempt st1 id env := by
  unfold acquire
  rw [if_neg (by simp [hv]), if_pos ht, hclean]
  rfl

lemma acquireAttempt_blocked (st1 : FS) (id : Ident) (env : Env)
    (hdir : st1.lockDirExists = true) :
    acquireAttempt st1 id env = .ok (false, { st1 with lockgroupExists := true }) := by
  unfold acquireAttempt
  simp [hdir]

lemma acquireAttempt_free (st1 : FS) (id : Ident) (env : Env)
    (hdir : st1.lockDirExists = false) (hpend : st1.pendingFile = none) :
    acquireAttempt st1 id env =
      .ok (verify (postAcquireState st1 id env) id, postAcquireState st1 id env) := by
  unfold acquireAttempt postAcquireState
  simp [hdir, hpend]

/-- C4 (amended): a PENDING artifact (lock directory present, acquired
file absent) blocks a plain `acquire()`: without a truthy `maxage`, no
reclamation runs, the leftover directory makes `os.mkdir` fail, and
`acquire` returns failure — the liveness of the artifact's owner is never
consulted.  With a truthy `maxage` whose threshold the directory's age
meets or exceeds, the age-based reclamation inside `acquire` clears the
artifact and the acquisition by a well-formed new identity succeeds. -/
theorem C4_crash_recovery :
    (∀ (st : FS) (id : Ident) (env : Env),
      st.acquiredFile = none → st.lockDirExists = true →
      acquire st id none env = .ok (false, { st with lockgroupExists := true })) ∧
    (∀ (st : FS) (id : Ident) (env : Env) (m : Int),
      st.acquiredFile = none → st.lockDirExists = true →
      m ≠ 0 → env.now - st.lockDirMtime ≥ m →
      wfHost id.hostname → (mkRecord id).data.length ≤ 1024 →
      acquire st id (some m) env =
        .ok (true, postAcquireState (removeLockDir st) id env)) := by
  constructor
  · intro st id env hacq hdir
    have hv := verify_no_acquired st id hacq
    rw [acquire_not_held_none st id env hv, acquireAttempt_blocked st id env hdir]
  · intro st id env m hacq hdir hm hage hwf hlen
    have hv := verify_no_acquired st id hacq
    have ht : truthyMaxage (some m) = true := by simp [truthyMaxage, hm]
    have hagerm : cleanupAge st (some m) env = removeLockDir st := by
      unfold cleanupAge
      rw [if_pos (by rw [ht, hdir]; simp [hage])]
    have hclean : cleanup st id (some m) env = .ok (true, removeLockDir st) := by
      unfold cleanup
      rw [hagerm]
      unfold cleanupLive
      rw [show (removeLockDir st).acquiredFile = none from rfl]
    rw [acquire_not_held_maxage st id env m hv ht true (removeLockDir st) hclean,
      acquireAttempt_free (removeLockDir st) id env rfl rfl,
      verify_own_record (postAcquireState (removeLockDir st) id env) id hwf hlen
        rfl rfl]

/-- A PENDING artifact: the lock directory and pending file (record
"x 9") are on disk, the acquired file is absent (mtime 0). -/
def stPendC4 : FS := ⟨true, false, true, 0, some ("x 9"), none, false⟩

/-- Probe environment at time 100 in which pid 9 — the artifact's owner —
is NOT running. -/
def envDeadC4 : Env := ⟨100, fun p => if p = 9 then .errOther else .ok⟩

/-- Counterexample to C4 as stated: the artifact's owner (pid 9) is dead,
yet a plain `acquire()` by the fresh identity (h, 5) returns failure —
reclamation does not run without a `maxAge` argument. -/
theorem C4_counterexample :
    stPendC4.pendingFile = some ("x 9") ∧ stPendC4.acquiredFile = none ∧
      envDeadC4.alive 9 = .errOther ∧
      acquire stPendC4 ⟨"h", 5⟩ none envDeadC4 = .ok (false, stPendC4) := by
  exact ⟨rfl, rfl, by decide, rfl⟩

/-- Witness for the amended C4 theorem: the same artifact blocks a plain
`acquire()` but is reclaimed by `acquire(50)` at age 100. -/
theorem C4_crash_recovery_witness :
    acquire stPendC4 ⟨"h", 5⟩ none envDeadC4 =
        .ok (false, { stPendC4 with lockgroupExists := true }) ∧
      acquire stPendC4 ⟨"h", 5⟩ (some 50) envDeadC4 =
        .ok (true, postAcquireState (removeLockDir stPendC4) ⟨"h", 5⟩ envDeadC4) :=
  ⟨C4_crash_recovery.1 stPendC4 ⟨"h", 5⟩ envDeadC4 rfl rfl,
   C4_crash_recovery.2 stPendC4 ⟨"h", 5⟩ envDeadC4 50 rfl rfl (by decide)
     (by decide) (by decide) (by decide)⟩

/-- C8 (amended): trace semantics of the barrier wait.  `wait` raises the
Timeout failure exactly when some iteration `k` within the unrolled fuel
is reached (every earlier iteration found the timeout unexpired, the
directory present, and `rmdir` failing with `ENOTEMPTY` or `ENOENT` — the
two expected continue conditions) and the elapsed time at `k` meets or
exceeds the timeout — REGARDLESS of whether the directory still exists at
`k`, because the timeout check precedes the existence check.  It returns
success exactly when such a `k` is reached where the timeout is unexpired
and the directory is absent or this caller's `rmdir` succeeds. -/
theorem C8_wait_barrier_semantics (lk : Lock) (env : WaitEnv) (timeout : Int)
    (fuel n : Nat) :
    ((∃ s, waitLoop lk env timeout fuel n = some (.timedOut, s)) ↔
      ∃ k, n ≤ k ∧ k < n + fuel ∧
        (∀ j, n ≤ j → j < k → continuesAt env timeout j) ∧
        timesOutAt env timeout k) ∧
    ((∃ s, waitLoop lk env timeout fuel n = some (.done, s)) ↔
      ∃ k, n ≤ k ∧ k < n + fuel ∧
        (∀ j, n ≤ j → j < k → continuesAt env timeout j) ∧
        succeedsAt env timeout k) :=
  ⟨waitLoop_timedOut_iff lk env timeout fuel n,
   waitLoop_done_iff lk env timeout fuel n⟩

/-- A lock object with poll field 0 (any value works for C8). -/
def lkC8 : Lock := ⟨"lock", 0, "h", 5, false⟩

/-- A wait environment where no time has passed and the lockgroup
directory never exists. -/
def envWaitC8 : WaitEnv := ⟨fun _ => 0, fun _ => false, fun _ => .ok⟩

/-- Counterexample to C8 as stated: with `timeout = 0`, the very first
probe finds the elapsed time (0) already at the timeout and raises
Timeout even though the lockgroup directory does not exist — contradicting
both "Timeout ... while the lockgroup directory still exists" and
"returns success when the lockgroup directory does not exist". -/
theorem C8_counterexample :
    envWaitC8.isdir 0 = false ∧
      waitLoop lkC8 envWaitC8 0 1 0 = some (.timedOut, []) := by
  constructor
  · rfl
  · rw [waitLoop, if_pos (by norm_num [envWaitC8])]

/-- C9: the value slept between barrier-wait probes is always the
constructed `poll` field — but `__init__` stores `int(poll)`, so the
default `poll = 0.5` is truncated to 0 and `wait()` busy-polls with
0-second sleeps instead of the documented half-second interval. -/
theorem C9_poll_interval :
    (∀ (lk : Lock) (env : WaitEnv) (timeout : Int) (fuel n : Nat)
      (r : WaitResult) (s : List Int),
      waitLoop lk env timeout fuel n = some (r, s) → ∀ x ∈ s, x = lk.poll) ∧
    (mkLock ("lock") (1 / 2) false ("h") 42).poll = 0 ∧
    ((mkLock ("lock") (1 / 2) false ("h") 42).poll : ℚ) ≠ 1 / 2 := by
  refine ⟨?_, ?_, ?_⟩
  · intro lk env timeout fuel n r s hs
    exact waitLoop_sleeps lk env timeout fuel n r s hs
  · rw [show (1 / 2 : ℚ) = mkRat 1 2 from by norm_num [Rat.mkRat_eq_div]]
    decide
  · rw [show (1 / 2 : ℚ) = mkRat 1 2 from by norm_num [Rat.mkRat_eq_div]]
    decide

/-- The lock constructed with the default poll value 0.5. -/
def lkC9 : Lock := mkLock ("lock") (mkRat 1 2) false ("h") 42

/-- A wait environment with one-second ticks, the directory always
present, and `rmdir` always failing with `ENOTEMPTY`. -/
def envWaitC9 : WaitEnv := ⟨fun n => ((n : Int) : ℚ), fun _ => true, fun _ => .errENOTEMPTY⟩

/-- Witness for C9: a three-iteration timed-out run sleeps [0, 0, 0] —
each slept interval equals the (truncated) poll field of `lkC9`. -/
theorem C9_poll_interval_witness :
    waitLoop lkC9 envWaitC9 3 4 0 = some (.timedOut, [0, 0, 0]) ∧
      (0 : Int) = lkC9.poll :=
  ⟨by decide,
   C9_poll_interval.1 lkC9 envWaitC9 3 4 0 .timedOut [0, 0, 0] (by decide) 0
     (by decide)⟩

/-- A non-`nohup` lock object for host h with os pid 100. -/
def lkC10 : Lock := mkLock ("lock") (mkRat 1 2) false ("h") 100

/-- A stale on-disk lock: same host h, dead owner pid 999. -/
def stStaleC10 : FS := ⟨true, false, true, 0, none, some ("h 999"), true⟩

/-- Probe environment in which pid 999 is not running. -/
def envC10 : Env := ⟨0, fun p => if p = 999 then .errOther else .ok⟩

/-- C10: destructor auto-release.  (1) `nohup=True` construction stores
the sentinel pid `-1`; (2) destruction of a `nohup` instance performs no
release; (3) destruction of a non-`nohup` instance invokes `release()`;
(4) `release()` by an identity that does not hold the lock degrades to a
plain `cleanup()`; (5) concretely, constructing and discarding an
unacquired non-`nohup` lock object whose host matches a stale on-disk
record (dead pid 999) removes that stale lock directory from disk. -/
theorem C10_del_autorelease :
    (∀ (lockname : String) (poll : ℚ) (hostname : String) (ospid : Int),
      (mkLock lockname poll true hostname ospid).pid = -1) ∧
    (∀ (lk : Lock) (st : FS) (env : Env), lk.nohup = true →
      delEffect lk st env = .ok st) ∧
    (∀ (lk : Lock) (st : FS) (env : Env), lk.nohup = false →
      delEffect lk st env = (release st lk.ident env).map (fun r => r.2)) ∧
    (∀ (st : FS) (id : Ident) (env : Env), verify st id = false →
      release st id env = cleanup st id none env) ∧
    (delEffect lkC10 stStaleC10 envC10 = .ok (removeLockDir stStaleC10) ∧
      verify stStaleC10 lkC10.ident = false ∧
      (removeLockDir stStaleC10).lockDirExists = false) := by
  refine ⟨?_, ?_, ?_, ?_, ?_, by decide, rfl⟩
  · intro lockname poll hostname ospid
    rfl
  · intro lk st env h
    unfold delEffect
    rw [if_pos h]
  · intro lk st env h
    unfold delEffect
    rw [if_neg (by simp [h])]
  · intro st id env hv
    unfold release
    rw [if_neg (by simp [hv])]
  · rfl

/-- Witness for C10 at concrete inputs. -/
theorem C10_del_autorelease_witness :
    (mkLock ("l") 1 true ("h") 7).pid = -1 ∧
      delEffect (mkLock ("l") 1 true ("h") 7) stStaleC10 envC10 = .ok stStaleC10 ∧
      delEffect lkC10 stStaleC10 envC10 =
        (release stStaleC10 lkC10.ident envC10).map (fun r => r.2) ∧
      release stStaleC10 lkC10.ident envC10 =
        cleanup stStaleC10 lkC10.ident none envC10 :=
  ⟨C10_del_autorelease.1 ("l") 1 ("h") 7,
   C10_del_autorelease.2.1 (mkLock ("l") 1 true ("h") 7) stStaleC10 envC10 rfl,
   C10_del_autorelease.2.2.1 lkC10 stStaleC10 envC10 rfl,
   C10_del_autorelease.2.2.2.1 stStaleC10 lkC10.ident envC10 (by decide)⟩
